import Mathlib

/-!
Shallow embedding of the OAuth2 redirect-capture server implemented in
`apps/desktop/src-tauri/src/lib.rs` (the `start_oauth_server` Tauri command
and its helpers `active_nonces`, `cors_headers`, and the constants
`OAUTH_PORT_MIN` / `OAUTH_PORT_MAX`).

Modelling choices, each justified by the source:

* The nonce registry (`active_nonces`, a `HashMap<u16, String>` behind a
  `Mutex`) is modelled as an association list threaded explicitly through the
  functions that use it, with `insert` overwriting any previous entry for the
  key (HashMap semantics) and `remove` deleting it.

* An inbound connection is modelled by `Req`: the accept call can fail
  (`server.recv()` returning `Err`, modelled by `Req.acceptFail`), or deliver
  a request whose method is `OPTIONS`, `POST`, or anything else
  (`Req.otherMethod`).  A POST body is modelled at the level of the outcome
  the Rust code observes: `read_to_string` failing (`PostBody.unreadable`),
  `serde_json::from_str` failing (`PostBody.notJson`), or a parsed JSON
  object from which `get("code"/"nonce"/"state").and_then(as_str)` extracts
  three optional strings (`PostBody.json`).

* Emitting an event (`app_handle.emit("oauth-callback", url)`) is recorded in
  an events list; responding to a request is recorded as an optional
  `Response` (a failed accept or a non-OPTIONS, non-POST method produces no
  response at all).

* `urlencoding::encode` percent-encodes every UTF-8 byte except ASCII
  alphanumerics and `-`, `.`, `_`, `~`, using uppercase hex digits; it is
  reimplemented byte-for-byte as `urlencode`.

* The worker thread's `for _ in 0..10` loop is `runLoop`, structurally
  recursive on the remaining iteration count (fuel = 10 at spawn).  The loop
  consumes one unit of fuel per iteration whether the accept failed or not,
  and exits early exactly where the Rust code says `break`.  Running out of
  pending connections with fuel remaining corresponds to the real worker
  blocking in `server.recv()`; the result then has `terminated = false`.

* Port allocation (`for p in OAUTH_PORT_MIN..=OAUTH_PORT_MAX { if let Ok(s) =
  Server::http(...) ... }`) is modelled by `allocatePort` over an environment
  `free : Nat → Bool` saying which ports bind successfully.
-/

/-- Lower bound of the OAuth callback port range (`OAUTH_PORT_MIN` in the source). -/
def OAUTH_PORT_MIN : Nat := 17900

/-- Upper bound of the OAuth callback port range (`OAUTH_PORT_MAX` in the source). -/
def OAUTH_PORT_MAX : Nat := 17999

/-- The candidate ports `OAUTH_PORT_MIN..=OAUTH_PORT_MAX`, in the ascending
order the `for` loop in `start_oauth_server` scans them. -/
def oauthPorts : List Nat := List.range' OAUTH_PORT_MIN (OAUTH_PORT_MAX + 1 - OAUTH_PORT_MIN)

/-- Port allocation: the first port of the range for which binding succeeds.
`free p = true` models `Server::http("127.0.0.1:{p}")` returning `Ok`. -/
def allocatePort (free : Nat → Bool) : Option Nat := oauthPorts.find? free

/-- The nonce registry `active_nonces`: `HashMap<u16, String>` mapping a bound
port to the nonce expected on it, modelled as an association list with at most
one entry per key. -/
def Registry : Type := List (Nat × String)

instance : DecidableEq Registry := inferInstanceAs (DecidableEq (List (Nat × String)))

/-- `nonces.insert(port, nonce)`: HashMap insert, overwriting any entry for the key. -/
def Registry.insert (r : Registry) (p : Nat) (v : String) : Registry :=
  (p, v) :: List.filter (fun e => e.1 != p) r

/-- `nonces.remove(&port)`: HashMap remove. -/
def Registry.remove (r : Registry) (p : Nat) : Registry :=
  List.filter (fun e => e.1 != p) r

/-- HashMap lookup: the nonce stored for a port, if any. -/
def Registry.findNonce (r : Registry) (p : Nat) : Option String :=
  Option.map (fun e => e.2) (List.find? (fun e => e.1 == p) r)

/-- Number of registry entries whose key is `p` (a HashMap has at most one). -/
def Registry.countKey (r : Registry) (p : Nat) : Nat :=
  (List.filter (fun e => e.1 == p) r).length

/-- UTF-8 encoding of a single character as a list of byte values, as Rust
iterates over `str.bytes()`. -/
def utf8Bytes (c : Char) : List Nat :=
  let n := c.toNat
  if n < 128 then [n]
  else if n < 2048 then [192 + n / 64, 128 + n % 64]
  else if n < 65536 then [224 + n / 4096, 128 + n / 64 % 64, 128 + n % 64]
  else [240 + n / 262144, 128 + n / 4096 % 64, 128 + n / 64 % 64, 128 + n % 64]

/-- The bytes `urlencoding::encode` passes through unchanged:
ASCII alphanumerics and `-`, `.`, `_`, `~`. -/
def isUrlSafeByte (b : Nat) : Bool :=
  (65 ≤ b && b ≤ 90) || (97 ≤ b && b ≤ 122) || (48 ≤ b && b ≤ 57) ||
    b == 45 || b == 46 || b == 95 || b == 126

/-- Uppercase hexadecimal digit for `n < 16`, as `urlencoding` emits. -/
def hexDigitChar (n : Nat) : Char :=
  if n < 10 then Char.ofNat (48 + n) else Char.ofNat (55 + n)

/-- Percent-encoding of one byte: safe bytes pass through, every other byte
becomes `%XY` with uppercase hex. -/
def encodeByte (b : Nat) : List Char :=
  if isUrlSafeByte b then [Char.ofNat b] else ['%', hexDigitChar (b / 16), hexDigitChar (b % 16)]

/-- `urlencoding::encode`: percent-encode the UTF-8 bytes of a string. -/
def urlencode (s : String) : String :=
  String.mk (List.flatten (List.map encodeByte (List.flatten (List.map utf8Bytes s.data))))

/-- An HTTP response as the code constructs it: status code, the headers
attached with `with_header` in attachment order, and an optional body
(`Response::empty(204)` has none). -/
structure Response where
  status : Nat
  headers : List (String × String)
  body : Option String
deriving DecidableEq, Repr

/-- `cors_headers()`: the five headers attached to every OAuth response. -/
def cors_headers : List (String × String) :=
  [("Access-Control-Allow-Origin", "*"),
   ("Access-Control-Allow-Methods", "POST, OPTIONS"),
   ("Access-Control-Allow-Headers", "Content-Type"),
   ("Content-Type", "application/json"),
   ("Connection", "close")]

/-- The three headers the spec calls "the CORS header set". -/
def corsHeaderSet : List (String × String) :=
  [("Access-Control-Allow-Origin", "*"),
   ("Access-Control-Allow-Methods", "POST, OPTIONS"),
   ("Access-Control-Allow-Headers", "Content-Type")]

/-- Outcome of reading and parsing a POST body, at the granularity the Rust
code observes: `read_to_string` failed, `serde_json::from_str` failed, or a
JSON value from which the three fields were extracted as optional strings
(`json.get(k).and_then(as_str)`). -/
inductive PostBody where
  | unreadable : PostBody
  | notJson : PostBody
  | json (code nonce state : Option String) : PostBody
deriving DecidableEq, Repr

/-- One iteration's input to the worker loop: a failed accept, or an accepted
request dispatched on its HTTP method. -/
inductive Req where
  | acceptFail : Req
  | options : Req
  | otherMethod : Req
  | post (body : PostBody) : Req
deriving DecidableEq, Repr

/-- Effect of handling one loop iteration: the registry afterwards, the
response written (if any), the events emitted, and whether the loop breaks. -/
structure HandleResult where
  reg : Registry
  response : Option Response
  events : List (String × String)
  stop : Bool
deriving DecidableEq

/-- Body of the success response (the JSON object `success: true`). -/
def successBody : String := "\x7b\"success\":true\x7d"

/-- The callback URL reconstructed on success:
`format!("http://localhost:{}?code={}&state={}", port, encode(code), encode(state))`. -/
def callbackUrl (port : Nat) (code state : String) : String :=
  "http://localhost:" ++ toString port ++ "?code=" ++ urlencode code ++ "&state=" ++ urlencode state

/-- The `200` success response: `Response::from_string` (status 200) with an
explicit `Content-Length` header, then the CORS headers. -/
def successResponse : Response :=
  { status := 200
    headers := ("Content-Length", toString successBody.length) :: cors_headers
    body := some successBody }

/-- The `204` preflight response: `Response::empty(204)` with the max-age
header, then the CORS headers. -/
def optionsResponse : Response :=
  { status := 204
    headers := ("Access-Control-Max-Age", "86400") :: cors_headers
    body := none }

/-- An error response: `Response::from_string(body).with_status_code(status)`
with the CORS headers. -/
def errorResponse (status : Nat) (body : String) : Response :=
  { status := status, headers := cors_headers, body := some body }

/-- One iteration of the worker loop body, dispatching exactly as the Rust
code does: accept failures and non-OPTIONS, non-POST methods fall through
with no effect; OPTIONS answers 204; a POST is validated in stages, and the
nonce comparison is against the captured `expected_nonce` string. -/
def handleRequest (expected : String) (port : Nat) (reg : Registry) : Req → HandleResult
  | Req.acceptFail => ⟨reg, none, [], false⟩
  | Req.options => ⟨reg, some optionsResponse, [], false⟩
  | Req.otherMethod => ⟨reg, none, [], false⟩
  | Req.post PostBody.unreadable =>
      ⟨reg, some (errorResponse 400 "\x7b\"error\":\"Failed to read body\"\x7d"), [], false⟩
  | Req.post PostBody.notJson =>
      ⟨reg, some (errorResponse 400 "\x7b\"error\":\"Invalid JSON\"\x7d"), [], false⟩
  | Req.post (PostBody.json code nonce state) =>
      match code, nonce, state with
      | some c, some n, some s =>
          if n = expected then
            ⟨reg.remove port, some successResponse,
              [("oauth-callback", callbackUrl port c s)], true⟩
          else
            ⟨reg, some (errorResponse 403 "\x7b\"error\":\"Invalid nonce\"\x7d"), [], false⟩
      | _, _, _ =>
          ⟨reg, some (errorResponse 400 "\x7b\"error\":\"Missing fields\"\x7d"), [], false⟩

/-- Result of running the worker loop: final registry, all responses written,
all events emitted, the number of loop iterations consumed, and whether the
`for` loop exited (`true`) or the worker is still blocked in `recv`
(`false`, only possible when the supplied connections ran out early). -/
structure WorkerResult where
  reg : Registry
  responses : List Response
  events : List (String × String)
  iterations : Nat
  terminated : Bool
deriving DecidableEq

/-- The worker loop `for _ in 0..fuel`, processing pending connections in
order: each iteration consumes one unit of fuel (also on a failed accept),
and the loop breaks right after a successful validation. -/
def runLoop (expected : String) (port : Nat) : Nat → Registry → List Req → WorkerResult
  | 0, reg, _ => ⟨reg, [], [], 0, true⟩
  | _ + 1, reg, [] => ⟨reg, [], [], 0, false⟩
  | fuel + 1, reg, req :: rest =>
      let h := handleRequest expected port reg req
      if h.stop then
        ⟨h.reg, h.response.toList, h.events, 1, true⟩
      else
        let r := runLoop expected port fuel h.reg rest
        ⟨r.reg, h.response.toList ++ r.responses, h.events ++ r.events,
          r.iterations + 1, r.terminated⟩

/-- The spawned worker: the loop with its fixed ceiling of 10 iterations. -/
def runWorker (expected : String) (port : Nat) (reg : Registry) (reqs : List Req) : WorkerResult :=
  runLoop expected port 10 reg reqs

/-- `start_oauth_server`: allocate a port (propagating the exhaustion error),
register the freshly generated nonce under it, and return `(port, nonce)`.
The nonce is a parameter because `generate_nonce()` draws on the clock and
thread id; the registry after registration is returned alongside. -/
def start_oauth_server (free : Nat → Bool) (nonce : String) (reg : Registry) :
    Except String (Nat × String × Registry) :=
  match allocatePort free with
  | none => Except.error "No available ports in range 17900-17999"
  | some port => Except.ok (port, nonce, reg.insert port nonce)

/-- Whether a loop input is the single success path: a POST whose JSON body
has all three string fields and whose nonce equals the captured expected
nonce. -/
def isSuccess (expected : String) : Req → Bool
  | Req.post (PostBody.json (some _) (some n) (some _)) => n == expected
  | _ => false

/-! ### Registry lemmas -/

theorem filter_keyEq_filter_keyNe (r : List (Nat × String)) (p : Nat) :
    List.filter (fun e => e.1 == p) (List.filter (fun e => e.1 != p) r) = [] := by
  induction r with
  | nil => rfl
  | cons a t ih =>
      rw [List.filter_cons]
      by_cases h : a.1 = p
      · simp only [h, bne_self_eq_false, if_false]
        exact ih
      · have hb : (a.1 != p) = true := by simp [h]
        rw [hb, if_pos rfl, List.filter_cons]
        have hb2 : (a.1 == p) = false := by simp [h]
        rw [hb2, if_neg Bool.false_ne_true]
        exact ih

theorem Registry.countKey_insert (r : Registry) (p : Nat) (v : String) :
    (r.insert p v).countKey p = 1 := by
  unfold Registry.insert Registry.countKey
  rw [List.filter_cons]
  simp only [beq_self_eq_true, if_true]
  rw [filter_keyEq_filter_keyNe]
  rfl

theorem Registry.findNonce_insert (r : Registry) (p : Nat) (v : String) :
    (r.insert p v).findNonce p = some v := by
  unfold Registry.insert Registry.findNonce
  have h : List.find? (fun e => e.1 == p) ((p, v) :: List.filter (fun e => e.1 != p) r)
      = some (p, v) := List.find?_cons_of_pos _ (by simp)
  rw [h]
  rfl

theorem Registry.countKey_remove (r : Registry) (p : Nat) :
    (r.remove p).countKey p = 0 := by
  unfold Registry.remove Registry.countKey
  rw [filter_keyEq_filter_keyNe]
  rfl

/-! ### Per-request lemmas -/

theorem handleRequest_success (e : String) (p : Nat) (reg : Registry) (c s : String) :
    handleRequest e p reg (Req.post (PostBody.json (some c) (some e) (some s))) =
      ⟨reg.remove p, some successResponse, [("oauth-callback", callbackUrl p c s)], true⟩ := by
  simp [handleRequest]

theorem handleRequest_not_success (e : String) (p : Nat) (reg : Registry) (r : Req)
    (h : isSuccess e r = false) :
    (handleRequest e p reg r).reg = reg ∧ (handleRequest e p reg r).events = [] ∧
    (handleRequest e p reg r).stop = false ∧
    List.countP (fun resp => resp.status == 200) (handleRequest e p reg r).response.toList = 0 := by
  cases r with
  | acceptFail => exact ⟨rfl, rfl, rfl, rfl⟩
  | options => exact ⟨rfl, rfl, rfl, rfl⟩
  | otherMethod => exact ⟨rfl, rfl, rfl, rfl⟩
  | post b =>
    cases b with
    | unreadable => exact ⟨rfl, rfl, rfl, rfl⟩
    | notJson => exact ⟨rfl, rfl, rfl, rfl⟩
    | json co no so =>
      cases co with
      | none => exact ⟨rfl, rfl, rfl, rfl⟩
      | some c =>
        cases no with
        | none => exact ⟨rfl, rfl, rfl, rfl⟩
        | some n =>
          cases so with
          | none => exact ⟨rfl, rfl, rfl, rfl⟩
          | some s =>
            have hne : ¬ n = e := by
              simpa [isSuccess] using h
            simp [handleRequest, hne, errorResponse]

theorem handleRequest_events_cases (e : String) (p : Nat) (reg : Registry) (r : Req) :
    ((handleRequest e p reg r).stop = false ∧ (handleRequest e p reg r).events = []) ∨
    ((handleRequest e p reg r).stop = true ∧ (handleRequest e p reg r).events.length = 1) := by
  cases r with
  | acceptFail => exact Or.inl ⟨rfl, rfl⟩
  | options => exact Or.inl ⟨rfl, rfl⟩
  | otherMethod => exact Or.inl ⟨rfl, rfl⟩
  | post b =>
    cases b with
    | unreadable => exact Or.inl ⟨rfl, rfl⟩
    | notJson => exact Or.inl ⟨rfl, rfl⟩
    | json co no so =>
      cases co with
      | none => exact Or.inl ⟨rfl, rfl⟩
      | some c =>
        cases no with
        | none => exact Or.inl ⟨rfl, rfl⟩
        | some n =>
          cases so with
          | none => exact Or.inl ⟨rfl, rfl⟩
          | some s =>
            by_cases hn : n = e
            · subst hn
              right
              rw [handleRequest_success]
              exact ⟨rfl, rfl⟩
            · left
              simp [handleRequest, hn]

theorem handleRequest_events_imp_success (e : String) (p : Nat) (reg : Registry) (r : Req)
    (h : (handleRequest e p reg r).events ≠ []) :
    ∃ c s, r = Req.post (PostBody.json (some c) (some e) (some s)) := by
  cases r with
  | acceptFail => exact absurd rfl h
  | options => exact absurd rfl h
  | otherMethod => exact absurd rfl h
  | post b =>
    cases b with
    | unreadable => exact absurd rfl h
    | notJson => exact absurd rfl h
    | json co no so =>
      cases co with
      | none => exact absurd rfl h
      | some c =>
        cases no with
        | none => exact absurd rfl h
        | some n =>
          cases so with
          | none => exact absurd rfl h
          | some s =>
            by_cases hn : n = e
            · exact ⟨c, s, by rw [hn]⟩
            · exact absurd (by simp [handleRequest, hn]) h

/-! ### Worker-loop lemmas -/

theorem runLoop_zero (e : String) (p : Nat) (reg : Registry) (reqs : List Req) :
    runLoop e p 0 reg reqs = ⟨reg, [], [], 0, true⟩ := rfl

theorem runLoop_nil (e : String) (p : Nat) (fuel : Nat) (reg : Registry) :
    runLoop e p (fuel + 1) reg [] = ⟨reg, [], [], 0, false⟩ := rfl

theorem runLoop_cons (e : String) (p : Nat) (fuel : Nat) (reg : Registry)
    (req : Req) (rest : List Req) :
    runLoop e p (fuel + 1) reg (req :: rest) =
      (let h := handleRequest e p reg req
       if h.stop then
         ⟨h.reg, h.response.toList, h.events, 1, true⟩
       else
         let r := runLoop e p fuel h.reg rest
         ⟨r.reg, h.response.toList ++ r.responses, h.events ++ r.events,
           r.iterations + 1, r.terminated⟩) := rfl

theorem runLoop_iterations_le (e : String) (p : Nat) :
    ∀ (fuel : Nat) (reg : Registry) (reqs : List Req),
      (runLoop e p fuel reg reqs).iterations ≤ fuel := by
  intro fuel
  induction fuel with
  | zero => intro reg reqs; rw [runLoop_zero]
  | succ n ih =>
    intro reg reqs
    cases reqs with
    | nil => rw [runLoop_nil]; exact Nat.zero_le _
    | cons req rest =>
      rw [runLoop_cons]
      by_cases h : (handleRequest e p reg req).stop
      · simp only [h, if_true]
        exact Nat.succ_le_succ (Nat.zero_le n)
      · simp only [h, if_false]
        exact Nat.succ_le_succ (ih _ rest)

theorem runLoop_no_success (e : String) (p : Nat) :
    ∀ (fuel : Nat) (reg : Registry) (reqs : List Req),
      (∀ r ∈ reqs, isSuccess e r = false) →
      (runLoop e p fuel reg reqs).iterations = min fuel reqs.length ∧
      ((runLoop e p fuel reg reqs).terminated = true ↔ fuel ≤ reqs.length) ∧
      (runLoop e p fuel reg reqs).events = [] ∧
      (runLoop e p fuel reg reqs).reg = reg ∧
      List.countP (fun resp => resp.status == 200) (runLoop e p fuel reg reqs).responses = 0 := by
  intro fuel
  induction fuel with
  | zero =>
    intro reg reqs _
    rw [runLoop_zero]
    exact ⟨by simp, by simp, rfl, rfl, rfl⟩
  | succ n ih =>
    intro reg reqs hno
    cases reqs with
    | nil =>
      rw [runLoop_nil]
      refine ⟨by simp, by simp, rfl, rfl, rfl⟩
    | cons req rest =>
      have hreq : isSuccess e req = false := hno req (List.mem_cons_self req rest)
      obtain ⟨hreg, hev, hstop, hcount⟩ := handleRequest_not_success e p reg req hreq
      rw [runLoop_cons]
      simp only [hstop, Bool.false_eq_true, if_false]
      obtain ⟨ih1, ih2, ih3, ih4, ih5⟩ :=
        ih (handleRequest e p reg req).reg rest (fun r hr => hno r (List.mem_cons_of_mem req hr))
      refine ⟨?_, ?_, ?_, ?_, ?_⟩
      · simp only [ih1, List.length_cons]
        omega
      · simp only [ih2, List.length_cons]
        omega
      · simp only [hev, ih3, List.nil_append]
      · rw [ih4, hreg]
      · rw [List.countP_append, hcount, ih5]

theorem runLoop_success_prefix (e : String) (p : Nat) (c s : String) :
    ∀ (pre : List Req) (fuel : Nat) (reg : Registry) (rest : List Req),
      (∀ r ∈ pre, isSuccess e r = false) → pre.length < fuel →
      (runLoop e p fuel reg
          (pre ++ Req.post (PostBody.json (some c) (some e) (some s)) :: rest)).iterations =
        pre.length + 1 ∧
      (runLoop e p fuel reg
          (pre ++ Req.post (PostBody.json (some c) (some e) (some s)) :: rest)).terminated = true ∧
      (runLoop e p fuel reg
          (pre ++ Req.post (PostBody.json (some c) (some e) (some s)) :: rest)).events =
        [("oauth-callback", callbackUrl p c s)] ∧
      (runLoop e p fuel reg
          (pre ++ Req.post (PostBody.json (some c) (some e) (some s)) :: rest)).reg =
        reg.remove p ∧
      List.countP (fun resp => resp.status == 200)
          (runLoop e p fuel reg
            (pre ++ Req.post (PostBody.json (some c) (some e) (some s)) :: rest)).responses = 1 := by
  intro pre
  induction pre with
  | nil =>
    intro fuel reg rest _ hlen
    obtain ⟨n, rfl⟩ : ∃ n, fuel = n + 1 := ⟨fuel - 1, by omega⟩
    rw [List.nil_append, runLoop_cons, handleRequest_success]
    exact ⟨rfl, rfl, rfl, rfl, rfl⟩
  | cons q pre ih =>
    intro fuel reg rest hno hlen
    obtain ⟨n, rfl⟩ : ∃ n, fuel = n + 1 := ⟨fuel - 1, by omega⟩
    have hq : isSuccess e q = false := hno q (List.mem_cons_self q pre)
    obtain ⟨hreg, hev, hstop, hcount⟩ := handleRequest_not_success e p reg q hq
    rw [List.cons_append, runLoop_cons]
    simp only [hstop, Bool.false_eq_true, if_false]
    have hlen' : pre.length < n := by
      simp only [List.length_cons] at hlen
      omega
    obtain ⟨ih1, ih2, ih3, ih4, ih5⟩ :=
      ih n (handleRequest e p reg q).reg rest
        (fun r hr => hno r (List.mem_cons_of_mem q hr)) hlen'
    refine ⟨?_, ih2, ?_, ?_, ?_⟩
    · rw [ih1, List.length_cons]
    · rw [hev, ih3, List.nil_append]
    · rw [ih4, hreg]
    · rw [List.countP_append, hcount, ih5]

theorem runLoop_events_le_one (e : String) (p : Nat) :
    ∀ (fuel : Nat) (reg : Registry) (reqs : List Req),
      (runLoop e p fuel reg reqs).events.length ≤ 1 := by
  intro fuel
  induction fuel with
  | zero => intro reg reqs; rw [runLoop_zero]; exact Nat.zero_le _
  | succ n ih =>
    intro reg reqs
    cases reqs with
    | nil => rw [runLoop_nil]; exact Nat.zero_le _
    | cons req rest =>
      rw [runLoop_cons]
      rcases handleRequest_events_cases e p reg req with ⟨hstop, hev⟩ | ⟨hstop, hev⟩
      · simp only [hstop, Bool.false_eq_true, if_false]
        simp only [hev, List.nil_append]
        exact ih _ rest
      · simp only [hstop, if_true]
        simp only [hev]
        exact Nat.le_refl 1

/-! ### Port-scan lemma -/

theorem range'_find?_first (f : Nat → Bool) :
    ∀ (len s p : Nat), (List.range' s len).find? f = some p →
      ∀ q, s ≤ q → q < p → f q = false := by
  intro len
  induction len with
  | zero =>
    intro s p h
    simp [List.range'] at h
  | succ n ih =>
    intro s p h q hsq hqp
    rw [List.range'_succ] at h
    cases hf : f s with
    | true =>
      rw [List.find?_cons_of_pos _ hf] at h
      have hp : p = s := by
        cases h
        rfl
      omega
    | false =>
      rw [List.find?_cons_of_neg _ (by simp [hf])] at h
      rcases Nat.eq_or_lt_of_le hsq with hq | hq
      · rw [hq] at hf
        exact hf
      · exact ih (s + 1) p h q hq hqp

/-! ### Claim theorems -/

/-- C1: a POST whose JSON body carries the three string fields and whose nonce is
exactly (case-sensitively) the session's expected nonce is answered `200` with body
`{"success":true}` and emits exactly one event named `oauth-callback`; no other
request outcome ever emits an event, and a whole worker run emits at most one. -/
theorem oauth_success_response_and_unique_event (e : String) (p : Nat) (reg : Registry)
    (req : Req) (reqs : List Req) :
    (∀ c s, req = Req.post (PostBody.json (some c) (some e) (some s)) →
      (handleRequest e p reg req).response = some successResponse ∧
      successResponse.status = 200 ∧
      successResponse.body = some "\x7b\"success\":true\x7d" ∧
      (handleRequest e p reg req).events = [("oauth-callback", callbackUrl p c s)]) ∧
    ((handleRequest e p reg req).events ≠ [] →
      ∃ c s, req = Req.post (PostBody.json (some c) (some e) (some s))) ∧
    (runWorker e p reg reqs).events.length ≤ 1 := by
  refine ⟨?_, handleRequest_events_imp_success e p reg req,
    runLoop_events_le_one e p 10 reg reqs⟩
  intro c s hreq
  subst hreq
  rw [handleRequest_success]
  exact ⟨rfl, rfl, rfl, rfl⟩

/-- Witness for C1: the concrete success POST of the spec scenario. -/
theorem oauth_success_response_and_unique_event_witness :
    (handleRequest "abc123" 17900 [(17900, "abc123")]
        (Req.post (PostBody.json (some "authcode1") (some "abc123") (some "xyz")))).events =
      [("oauth-callback", callbackUrl 17900 "authcode1" "xyz")] :=
  ((oauth_success_response_and_unique_event "abc123" 17900 [(17900, "abc123")]
      (Req.post (PostBody.json (some "authcode1") (some "abc123") (some "xyz"))) []).1
    "authcode1" "xyz" rfl).2.2.2

/-- C2: immediately after `start_oauth_server` succeeds, the registry holds exactly
one entry for the returned port, mapping it to the returned nonce; immediately after
a successful validation, the registry holds zero entries for the session's port. -/
theorem registry_entry_lifecycle (free : Nat → Bool) (nonce : String) (reg : Registry)
    (p : Nat) (n : String) (reg' : Registry) (e : String) (p2 : Nat) (reg2 : Registry)
    (c s : String) :
    (start_oauth_server free nonce reg = Except.ok (p, n, reg') →
      reg'.countKey p = 1 ∧ reg'.findNonce p = some n) ∧
    (handleRequest e p2 reg2
        (Req.post (PostBody.json (some c) (some e) (some s)))).reg.countKey p2 = 0 := by
  constructor
  · intro h
    rcases hA : allocatePort free with _ | q
    · simp [start_oauth_server, hA] at h
    · simp only [start_oauth_server, hA, Except.ok.injEq, Prod.mk.injEq] at h
      obtain ⟨hq, hn, hr⟩ := h
      subst hq
      subst hn
      subst hr
      exact ⟨Registry.countKey_insert reg _ _, Registry.findNonce_insert reg _ _⟩
  · rw [handleRequest_success]
    exact Registry.countKey_remove reg2 p2

/-- Witness for C2: port 17900 is free, so start registers exactly one entry. -/
theorem registry_entry_lifecycle_witness :
    (Registry.insert [] 17900 "abc123").countKey 17900 = 1 ∧
    (Registry.insert [] 17900 "abc123").findNonce 17900 = some "abc123" :=
  (registry_entry_lifecycle (fun q => q == 17900) "abc123" [] 17900 "abc123"
      (Registry.insert [] 17900 "abc123") "e" 1 [] "c" "s").1 rfl

/-- C3: the worker loop never runs more than 10 iterations; with at least 10 pending
requests and no successful validation it runs exactly 10 and terminates; it cannot
have terminated in fewer than 10 iterations unless a request validated; and a
validating POST after k < 10 non-validating requests stops the loop at iteration
k + 1. -/
theorem worker_terminates (e : String) (p : Nat) (reg : Registry) (reqs : List Req) :
    (runWorker e p reg reqs).iterations ≤ 10 ∧
    ((∀ r ∈ reqs, isSuccess e r = false) → 10 ≤ reqs.length →
      (runWorker e p reg reqs).iterations = 10 ∧
      (runWorker e p reg reqs).terminated = true) ∧
    ((∀ r ∈ reqs, isSuccess e r = false) → (runWorker e p reg reqs).terminated = true →
      10 ≤ reqs.length ∧ (runWorker e p reg reqs).iterations = 10) ∧
    (∀ pre c s rest,
      reqs = pre ++ Req.post (PostBody.json (some c) (some e) (some s)) :: rest →
      (∀ r ∈ pre, isSuccess e r = false) → pre.length < 10 →
      (runWorker e p reg reqs).iterations = pre.length + 1 ∧
      (runWorker e p reg reqs).terminated = true) := by
  simp only [runWorker]
  refine ⟨runLoop_iterations_le e p 10 reg reqs, ?_, ?_, ?_⟩
  · intro hno hlen
    obtain ⟨h1, h2, _, _, _⟩ := runLoop_no_success e p 10 reg reqs hno
    refine ⟨?_, h2.mpr hlen⟩
    rw [h1]
    omega
  · intro hno hterm
    obtain ⟨h1, h2, _, _, _⟩ := runLoop_no_success e p 10 reg reqs hno
    have hlen : 10 ≤ reqs.length := h2.mp hterm
    refine ⟨hlen, ?_⟩
    rw [h1]
    omega
  · intro pre c s rest hreqs hno hlen
    subst hreqs
    obtain ⟨h1, h2, _, _, _⟩ := runLoop_success_prefix e p c s pre 10 reg rest hno hlen
    exact ⟨h1, h2⟩

/-- Witness for C3: ten preflights exhaust the loop; one correct POST stops it at once. -/
theorem worker_terminates_witness :
    (runWorker "abc123" 17900 [] (List.replicate 10 Req.options)).iterations = 10 ∧
    (runWorker "abc123" 17900 []
        [Req.post (PostBody.json (some "c") (some "abc123") (some "s"))]).iterations = 1 := by
  constructor
  · exact ((worker_terminates "abc123" 17900 [] (List.replicate 10 Req.options)).2.1
      (by decide) (by decide)).1
  · exact ((worker_terminates "abc123" 17900 []
        [Req.post (PostBody.json (some "c") (some "abc123") (some "s"))]).2.2.2
      [] "c" "s" [] rfl (by decide) (by decide)).1

/-- C4, counterexample: after a successful POST on the spec's concrete session
(nonce `abc123`, port 17900), a second POST carrying the same formerly-correct nonce
is NOT answered `403` — the loop broke after the first success, so the run's sole
response is the single `200` success response, the second POST being left
unprocessed (iterations = 1 of 10). -/
theorem second_correct_post_unanswered :
    runWorker "abc123" 17900 [(17900, "abc123")]
        [Req.post (PostBody.json (some "c") (some "abc123") (some "s")),
         Req.post (PostBody.json (some "c") (some "abc123") (some "s"))] =
      ⟨[], [successResponse], [("oauth-callback", callbackUrl 17900 "c" "s")], 1, true⟩ := by
  decide

/-- C4, amended: after one POST validates successfully, the worker has terminated,
so a second POST — with the same nonce or any other — is never processed and
receives no response at all; success is at most once per session: exactly one
event emission and exactly one `200` response in the whole run. -/
theorem success_at_most_once (e : String) (p : Nat) (reg : Registry)
    (pre rest : List Req) (c s : String)
    (h1 : ∀ r ∈ pre, isSuccess e r = false) (h2 : pre.length < 10) :
    (runWorker e p reg
        (pre ++ Req.post (PostBody.json (some c) (some e) (some s)) :: rest)).iterations =
      pre.length + 1 ∧
    (runWorker e p reg
        (pre ++ Req.post (PostBody.json (some c) (some e) (some s)) :: rest)).terminated =
      true ∧
    (runWorker e p reg
        (pre ++ Req.post (PostBody.json (some c) (some e) (some s)) :: rest)).events =
      [("oauth-callback", callbackUrl p c s)] ∧
    List.countP (fun resp => resp.status == 200)
      (runWorker e p reg
        (pre ++ Req.post (PostBody.json (some c) (some e) (some s)) :: rest)).responses = 1 := by
  simp only [runWorker]
  obtain ⟨g1, g2, g3, _, g5⟩ := runLoop_success_prefix e p c s pre 10 reg rest h1 h2
  exact ⟨g1, g2, g3, g5⟩

/-- Witness for C4 (amended): the success POST followed by an identical retry. -/
theorem success_at_most_once_witness :
    (runWorker "abc123" 17900 [(17900, "abc123")]
        ([] ++ Req.post (PostBody.json (some "c") (some "abc123") (some "s")) ::
          [Req.post (PostBody.json (some "c") (some "abc123") (some "s"))])).iterations =
      ([] : List Req).length + 1 :=
  (success_at_most_once "abc123" 17900 [(17900, "abc123")] []
      [Req.post (PostBody.json (some "c") (some "abc123") (some "s"))] "c" "s"
      (by decide) (by decide)).1

/-- C5: a POST with all three string fields but a wrong nonce is answered `403`
with body `{"error":"Invalid nonce"}`, emits no event, and leaves the registry
untouched, so that a later POST with the correct nonce still succeeds. -/
theorem invalid_nonce_rejected_frame (e : String) (p : Nat) (reg : Registry)
    (c n s : String) (h : n ≠ e) :
    handleRequest e p reg (Req.post (PostBody.json (some c) (some n) (some s))) =
      ⟨reg, some (errorResponse 403 "\x7b\"error\":\"Invalid nonce\"\x7d"), [], false⟩ ∧
    (errorResponse 403 "\x7b\"error\":\"Invalid nonce\"\x7d").status = 403 ∧
    (errorResponse 403 "\x7b\"error\":\"Invalid nonce\"\x7d").body =
      some "\x7b\"error\":\"Invalid nonce\"\x7d" ∧
    (∀ c2 s2, (handleRequest e p reg
        (Req.post (PostBody.json (some c2) (some e) (some s2)))).stop = true ∧
      (handleRequest e p reg
        (Req.post (PostBody.json (some c2) (some e) (some s2)))).response =
        some successResponse) := by
  refine ⟨?_, rfl, rfl, ?_⟩
  · simp [handleRequest, h]
  · intro c2 s2
    rw [handleRequest_success]
    exact ⟨rfl, rfl⟩

/-- Witness for C5: the spec's concrete wrong-nonce scenario. -/
theorem invalid_nonce_rejected_frame_witness :
    handleRequest "abc123" 17900 [(17900, "abc123")]
        (Req.post (PostBody.json (some "c") (some "wrong") (some "s"))) =
      ⟨[(17900, "abc123")],
        some (errorResponse 403 "\x7b\"error\":\"Invalid nonce\"\x7d"), [], false⟩ :=
  (invalid_nonce_rejected_frame "abc123" 17900 [(17900, "abc123")] "c" "wrong" "s"
      (by decide)).1

/-- C6: `start_oauth_server` scans ports 17900–17999 in ascending order and uses the
first port that binds: any allocated port lies in the range, binds successfully, and
every lower candidate from 17900 on failed to bind; allocation comes back empty
exactly when no port of the range binds, and then `start_oauth_server` returns the
error naming the exhausted range. -/
theorem port_allocation_first_free (free : Nat → Bool) (nonce : String) (reg : Registry)
    (p : Nat) :
    (allocatePort free = some p →
      p ∈ oauthPorts ∧ free p = true ∧
      ∀ q, OAUTH_PORT_MIN ≤ q → q < p → free q = false) ∧
    (allocatePort free = none ↔ ∀ q ∈ oauthPorts, free q = false) ∧
    (start_oauth_server free nonce reg =
        Except.error "No available ports in range 17900-17999" ↔
      allocatePort free = none) := by
  refine ⟨?_, ?_, ?_⟩
  · intro h
    refine ⟨List.mem_of_find?_eq_some h, List.find?_some h, ?_⟩
    exact range'_find?_first free _ OAUTH_PORT_MIN p h
  · rw [allocatePort, List.find?_eq_none]
    constructor
    · intro h q hq
      have := h q hq
      simpa using this
    · intro h q hq
      simp [h q hq]
  · constructor
    · intro h
      rcases hA : allocatePort free with _ | q
      · rfl
      · simp [start_oauth_server, hA] at h
    · intro h
      simp [start_oauth_server, h]

/-- Witness for C6: with only port 17950 free, the scan returns 17950 and every
lower port in the range indeed fails to bind. -/
theorem port_allocation_first_free_witness :
    17950 ∈ oauthPorts ∧ (fun q => q == 17950) 17950 = true ∧
    (fun q => q == 17950) 17900 = false := by
  have h := (port_allocation_first_free (fun q => q == 17950) "n" [] 17950).1 (by decide)
  exact ⟨h.1, h.2.1, h.2.2 17900 (by decide) (by decide)⟩

theorem response_headers_contain_cors (e : String) (p : Nat) (reg : Registry) (req : Req)
    (resp : Response) (hresp : (handleRequest e p reg req).response = some resp) :
    ∀ hdr ∈ corsHeaderSet, hdr ∈ resp.headers := by
  cases req with
  | acceptFail => exact absurd hresp (by simp [handleRequest])
  | otherMethod => exact absurd hresp (by simp [handleRequest])
  | options =>
    simp only [handleRequest, Option.some.injEq] at hresp
    subst hresp
    decide
  | post b =>
    cases b with
    | unreadable =>
      simp only [handleRequest, Option.some.injEq] at hresp
      subst hresp
      decide
    | notJson =>
      simp only [handleRequest, Option.some.injEq] at hresp
      subst hresp
      decide
    | json co no so =>
      cases co with
      | none =>
        simp only [handleRequest, Option.some.injEq] at hresp
        subst hresp
        decide
      | some c =>
        cases no with
        | none =>
          simp only [handleRequest, Option.some.injEq] at hresp
          subst hresp
          decide
        | some n =>
          cases so with
          | none =>
            simp only [handleRequest, Option.some.injEq] at hresp
            subst hresp
            decide
          | some s =>
            by_cases hn : n = e
            · subst hn
              rw [handleRequest_success] at hresp
              simp only [Option.some.injEq] at hresp
              subst hresp
              decide
            · simp only [handleRequest, hn, if_false, Option.some.injEq] at hresp
              subst hresp
              decide

/-- C7: on every successful validation the emitted payload is the reconstructed
callback URL `http://localhost:{port}?code={code}&state={state}` with the POSTed
code and state URL-encoded; the spec's concrete scenario evaluates to
`http://localhost:17900?code=authcode1&state=xyz`, and the encoding really
percent-encodes reserved bytes. -/
theorem callback_url_payload (e : String) (p : Nat) (reg : Registry) (c s : String) :
    (handleRequest e p reg (Req.post (PostBody.json (some c) (some e) (some s)))).events =
      [("oauth-callback", callbackUrl p c s)] ∧
    callbackUrl p c s =
      "http://localhost:" ++ toString p ++ "?code=" ++ urlencode c ++ "&state=" ++
        urlencode s ∧
    callbackUrl 17900 "authcode1" "xyz" = "http://localhost:17900?code=authcode1&state=xyz" ∧
    urlencode "a b&c" = "a%20b%26c" := by
  refine ⟨?_, rfl, by decide, by decide⟩
  rw [handleRequest_success]

/-- C8: an unreadable POST body is answered `400 {"error":"Failed to read body"}`,
a non-JSON body `400 {"error":"Invalid JSON"}`, a JSON body missing one of the
three string fields `400 {"error":"Missing fields"}`, each with no event, no
registry change and no early stop; and every response the server ever writes
carries the CORS header set. -/
theorem post_error_responses_and_cors (e : String) (p : Nat) (reg : Registry) :
    handleRequest e p reg (Req.post PostBody.unreadable) =
      ⟨reg, some (errorResponse 400 "\x7b\"error\":\"Failed to read body\"\x7d"), [], false⟩ ∧
    handleRequest e p reg (Req.post PostBody.notJson) =
      ⟨reg, some (errorResponse 400 "\x7b\"error\":\"Invalid JSON\"\x7d"), [], false⟩ ∧
    (∀ co no so : Option String, co = none ∨ no = none ∨ so = none →
      handleRequest e p reg (Req.post (PostBody.json co no so)) =
        ⟨reg, some (errorResponse 400 "\x7b\"error\":\"Missing fields\"\x7d"), [], false⟩) ∧
    (∀ req resp, (handleRequest e p reg req).response = some resp →
      ∀ hdr ∈ corsHeaderSet, hdr ∈ resp.headers) := by
  refine ⟨rfl, rfl, ?_, response_headers_contain_cors e p reg⟩
  intro co no so h
  rcases h with h | h | h
  · subst h
    rfl
  · subst h
    cases co <;> rfl
  · subst h
    cases co <;> cases no <;> rfl

/-- Witness for C8: a field-less JSON body gets the missing-fields error, and the
invalid-JSON error response indeed carries the CORS origin header. -/
theorem post_error_responses_and_cors_witness :
    handleRequest "abc123" 17900 [] (Req.post (PostBody.json none none none)) =
      ⟨[], some (errorResponse 400 "\x7b\"error\":\"Missing fields\"\x7d"), [], false⟩ ∧
    ("Access-Control-Allow-Origin", "*") ∈
      (errorResponse 400 "\x7b\"error\":\"Invalid JSON\"\x7d").headers :=
  ⟨(post_error_responses_and_cors "abc123" 17900 []).2.2.1 none none none (Or.inl rfl),
   (post_error_responses_and_cors "abc123" 17900 []).2.2.2
      (Req.post PostBody.notJson)
      (errorResponse 400 "\x7b\"error\":\"Invalid JSON\"\x7d") rfl
      ("Access-Control-Allow-Origin", "*") (by decide)⟩

/-- C9: every OPTIONS request is answered `204 No Content` with the CORS headers
plus `Access-Control-Max-Age: 86400`; it emits no event, leaves the registry as it
was and never stops the session, yet it consumes exactly one of the loop's
iterations. -/
theorem options_preflight_neutral (e : String) (p : Nat) (reg : Registry)
    (fuel : Nat) (reqs : List Req) :
    handleRequest e p reg Req.options = ⟨reg, some optionsResponse, [], false⟩ ∧
    optionsResponse.status = 204 ∧
    optionsResponse.body = none ∧
    ("Access-Control-Max-Age", "86400") ∈ optionsResponse.headers ∧
    ("Access-Control-Allow-Origin", "*") ∈ optionsResponse.headers ∧
    ("Access-Control-Allow-Methods", "POST, OPTIONS") ∈ optionsResponse.headers ∧
    ("Access-Control-Allow-Headers", "Content-Type") ∈ optionsResponse.headers ∧
    (runLoop e p (fuel + 1) reg (Req.options :: reqs)).iterations =
      (runLoop e p fuel reg reqs).iterations + 1 ∧
    (runLoop e p (fuel + 1) reg (Req.options :: reqs)).events =
      (runLoop e p fuel reg reqs).events ∧
    (runLoop e p (fuel + 1) reg (Req.options :: reqs)).terminated =
      (runLoop e p fuel reg reqs).terminated :=
  ⟨rfl, rfl, rfl, by decide, by decide, by decide, by decide, rfl, rfl, rfl⟩

/-- C10: a request whose method is neither OPTIONS nor POST is sent no response at
all and changes neither the registry nor the emitted events, and a failed accept
behaves the same; each still consumes exactly one of the loop's 10 iterations. -/
theorem other_method_and_accept_fail_ignored (e : String) (p : Nat) (reg : Registry)
    (fuel : Nat) (reqs : List Req) :
    handleRequest e p reg Req.otherMethod = ⟨reg, none, [], false⟩ ∧
    handleRequest e p reg Req.acceptFail = ⟨reg, none, [], false⟩ ∧
    runLoop e p (fuel + 1) reg (Req.otherMethod :: reqs) =
      ⟨(runLoop e p fuel reg reqs).reg, (runLoop e p fuel reg reqs).responses,
        (runLoop e p fuel reg reqs).events, (runLoop e p fuel reg reqs).iterations + 1,
        (runLoop e p fuel reg reqs).terminated⟩ ∧
    runLoop e p (fuel + 1) reg (Req.acceptFail :: reqs) =
      ⟨(runLoop e p fuel reg reqs).reg, (runLoop e p fuel reg reqs).responses,
        (runLoop e p fuel reg reqs).events, (runLoop e p fuel reg reqs).iterations + 1,
        (runLoop e p fuel reg reqs).terminated⟩ :=
  ⟨rfl, rfl, rfl, rfl⟩
